import Mathlib

/-!
Verification development for the lunch-analyzer pipeline
(`lunch_analyzer.py`): a shallow embedding of the message classifier,
vendor/menu extractor, per-day deduplicator, sentiment scorer and
aggregator, together with theorems settling the specification claims.

Modelling conventions:
* Python strings are `List Char`; `str.lower` is ASCII `Char.toLower`
  (all characters relevant to the lexicons are ASCII or unaffected).
* Regex character classes `\s` and `\w` are modelled by their ASCII
  subsets (the texts the program manipulates are ASCII apart from emoji
  characters, which belong to neither class).
* Timestamps are modelled as a record of day number / hour / minute in
  the single reference timezone (US/Eastern); day `0` is a Monday, so
  Python's `date.weekday()` is `day % 7`.
* `html.unescape` is modelled on the common named entities that can
  occur in Slack payloads; the only fact the proofs use about it is
  that unescaping never lengthens a string, which holds for the full
  entity table as well (every entity reference is at least three
  characters and expands to at most two).
-/

/-- The apostrophe character, written via its code point. -/
def apos : Char := Char.ofNat 39

/-- ASCII whitespace, the model of Python's regex class `\s`. -/
def isPySpace (c : Char) : Bool :=
  c = ' ' || c = '\t' || c = '\n' || c = '\r' || c = Char.ofNat 11 || c = Char.ofNat 12

/-- ASCII uppercase letter. -/
def isUpperL (c : Char) : Bool := 'A' ≤ c && c ≤ 'Z'

/-- ASCII lowercase letter. -/
def isLowerL (c : Char) : Bool := 'a' ≤ c && c ≤ 'z'

/-- ASCII letter; the model of `[A-Z]` under `re.IGNORECASE`. -/
def isLetterL (c : Char) : Bool := isUpperL c || isLowerL c

/-- ASCII digit. -/
def isDigitL (c : Char) : Bool := '0' ≤ c && c ≤ '9'

/-- ASCII word character, the model of Python's regex class `\w`. -/
def isWordChar (c : Char) : Bool := isLetterL c || isDigitL c || c = '_'

/-- Lowercase a text, modelling Python's `str.lower()`. -/
def toLowerL (t : List Char) : List Char := t.map Char.toLower

/-- `startsWithL pat t` : does `t` start with `pat` (exact characters)? -/
def startsWithL : List Char → List Char → Bool
  | [], _ => true
  | _ :: _, [] => false
  | p :: ps, c :: cs => p = c && startsWithL ps cs

/-- Case-insensitive `startsWithL` (both sides lowercased pointwise). -/
def startsWithCI (pat t : List Char) : Bool :=
  startsWithL (toLowerL pat) (toLowerL t)

/-- `containsSub pat t` : does `pat` occur as a contiguous substring of `t`?
This models Python's `pat in t`. -/
def containsSub (pat : List Char) : List Char → Bool
  | [] => startsWithL pat []
  | c :: cs => startsWithL pat (c :: cs) || containsSub pat cs

/-- Does any of the given phrases occur in the text?  Models
`any(p in text for p in phrases)`. -/
def anyContains (phrases : List (List Char)) (t : List Char) : Bool :=
  phrases.any (fun p => containsSub p t)

/-- Does any of the given patterns occur inside the (short) name?  Models
`any(x in name for x in patterns)`. -/
def anyIn (pats : List (List Char)) (name : List Char) : Bool :=
  pats.any (fun p => containsSub p name)

/-- Strip leading and trailing ASCII whitespace, modelling `str.strip()`. -/
def stripWS (t : List Char) : List Char :=
  ((t.dropWhile isPySpace).reverse.dropWhile isPySpace).reverse

/-- Truncation toward zero of `x / 2`, modelling Python's `int(x * 0.5)`
(the float product is exact for the magnitudes the program handles). -/
def pyHalf (x : Int) : Int := if 0 ≤ x then x / 2 else -((-x) / 2)

/-- Apply the rescheduling multiplier: `int(x * 0.5)` when flagged,
`int(x * 1.0)` otherwise. -/
def halfIf (flag : Bool) (x : Int) : Int := if flag then pyHalf x else x

/-- Sum of an integer list (helper for reading scores as sums). -/
def intSum : List Int → Int
  | [] => 0
  | x :: xs => x + intSum xs

/-!  ## `analyze_sentiment` (lunch_analyzer.py lines 586-637)  -/

/-- The four characters that the source file stores in place of the fire
emoji (a Mac-Roman mojibake of `🔥`); embedded by code point. -/
def firePhraseChars : List Char :=
  [Char.ofNat 0xF8FF, Char.ofNat 0xFC, Char.ofNat 0xEE, Char.ofNat 0x2022]

/-- `positive_phrases` from `analyze_sentiment`. -/
def positive_phrases : List (List Char) :=
  ["so good".data, "really good".data, "amazing".data, "delicious".data,
   "love".data, "loved".data, "excellent".data, "great".data,
   "fantastic".data, "best".data, "favorite".data, "yummy".data,
   "tasty".data, "perfect".data, "incredible".data, "wow".data,
   "fire".data, firePhraseChars, "this".data, "yes".data, "agreed".data,
   "same".data, "facts".data, "truth".data]

/-- `negative_phrases` from `analyze_sentiment`. -/
def negative_phrases : List (List Char) :=
  ["bad".data, "terrible".data, "awful".data, "disgusting".data,
   "hate".data, "worst".data, "disappointed".data, "not good".data,
   "meh".data, "bland".data]

/-- `positive_emoji_patterns` from `analyze_sentiment`. -/
def positive_emoji_patterns : List (List Char) :=
  ["chef".data, "kiss".data, "fire".data, "heart".data, "star".data,
   "drool".data, "yum".data, "100".data, "exploding".data, "party".data,
   "clap".data, "raised_hands".data, "thumbsup".data, "thumbs_up".data,
   "muscle".data, "ok_hand".data, "check".data, "white_check_mark".data,
   "checkmark".data]

/-- `negative_emoji_patterns` from `analyze_sentiment`. -/
def negative_emoji_patterns : List (List Char) :=
  ["thumbsdown".data, "thumbs_down".data, "x".data, "cross".data,
   "disappointed".data, "sad".data]

/-- Consume `(?:[-_]\w+)*` maximally (fuelled scan); returns the rest. -/
def sepWordChunks (sep : Char → Bool) : Nat → List Char → List Char
  | 0, l => l
  | fuel + 1, l =>
    match l with
    | s :: cs =>
      if sep s then
        let w := cs.takeWhile isWordChar
        if w.isEmpty then l else sepWordChunks sep fuel (cs.drop w.length)
      else l
    | [] => l

/-- Try to read one `:\w+(?:[-_]\w+)*:` token at the head of `l` (which is
the text just after an opening `:`); on success return the captured name
and the rest of the text after the closing `:`. -/
def emojiTokenAt (sep : Char → Bool) (l : List Char) : Option (List Char × List Char) :=
  let w := l.takeWhile isWordChar
  if w.isEmpty then none
  else
    let r1 := l.drop w.length
    let r2 := sepWordChunks sep (r1.length + 1) r1
    match r2 with
    | ':' :: rest =>
      some ((l.take (l.length - r2.length)), rest)
    | _ => none

/-- All capture groups of `re.findall(r':(\w+(?:[-_]\w+)*):', text)`,
scanning left to right, non-overlapping. -/
def emojiFindAll : Nat → List Char → List (List Char)
  | 0, _ => []
  | _ + 1, [] => []
  | fuel + 1, c :: cs =>
    if c = ':' then
      match emojiTokenAt (fun s => s = '-' || s = '_') cs with
      | some (name, rest) => name :: emojiFindAll fuel rest
      | none => emojiFindAll fuel cs
    else emojiFindAll fuel cs

/-- `analyze_sentiment(text)`: +2 per positive phrase present, −2 per
negative phrase present, then ±2 per emoji-name token found in the text. -/
def analyze_sentiment (text : List Char) : Int :=
  let tl := toLowerL text
  let posScore : Int := intSum (positive_phrases.map
    (fun p => if containsSub p tl then 2 else 0))
  let negScore : Int := intSum (negative_phrases.map
    (fun p => if containsSub p tl then -2 else 0))
  let emojiScore : Int := intSum ((emojiFindAll (tl.length + 1) tl).map
    (fun name =>
      if anyIn positive_emoji_patterns name then 2
      else if anyIn negative_emoji_patterns name then -2
      else 0))
  posScore + negScore + emojiScore


/-!  ## Data model (§3 of the spec; Slack message records)  -/

/-- One emoji reaction: `(emoji_name, count)`; counts are non-negative
per the data model. -/
structure Reaction where
  name : List Char
  count : Nat
deriving Repr, DecidableEq

/-- A thread reply: text plus its own reactions. -/
structure Reply where
  text : List Char
  reactions : List Reaction
deriving Repr, DecidableEq

/-- Timestamp in the reference timezone: day number (day 0 a Monday, so
Python's `date.weekday()` is `day % 7`), hour and minute of day. -/
structure TimeInfo where
  day : Nat
  hour : Nat
  minute : Nat
deriving Repr, DecidableEq

/-- A channel message: text, optional timestamp (`'ts' in message`),
reactions, and the thread replies the pipeline would fetch for it
(empty when the message has no thread). -/
structure Msg where
  text : List Char
  ts : Option TimeInfo
  reactions : List Reaction
  replies : List Reply
deriving Repr, DecidableEq

/-!  ## `calculate_sentiment_rating` (lines 640-719)  -/

/-- Rescheduling lexicon (line 647-650). -/
def rescheduling_words : List (List Char) :=
  ["rescheduled".data, "reschedule".data, "cancelled".data, "canceled".data,
   "cancellation".data, "change in plans".data, "quick change".data,
   "originally planning".data, "postponed".data]

/-- Root-message enthusiastic emoji substrings (line 663), weight 3. -/
def enthRootPats : List (List Char) :=
  ["heart_eyes".data, "star_struck".data, "drooling".data, "yum".data,
   "fire".data, "100".data, "exploding_head".data]

/-- Root-message positive emoji substrings (line 666), weight 2. -/
def posRootPats : List (List Char) :=
  ["heart".data, "star".data, "thumbsup".data, "+1".data, "clap".data,
   "party".data, "raised_hands".data]

/-- Unhalved contribution of one root-message reaction
(`count * weight` with weight 3 / 2 / 1 by emoji tier, lines 662-670). -/
def reactionBase (r : Reaction) : Int :=
  let name := toLowerL r.name
  if anyIn enthRootPats name then (r.count : Int) * 3
  else if anyIn posRootPats name then (r.count : Int) * 2
  else (r.count : Int) * 1

/-- Agreement emoji substrings for reply reactions (line 697). -/
def agreement_emojis : List (List Char) :=
  ["check".data, "white_check_mark".data, "checkmark".data,
   "thumbsup".data, "+1".data, "this".data]

/-- Enthusiastic substrings for reactions on positive replies (line 704). -/
def enthReplyPosPats : List (List Char) :=
  ["heart_eyes".data, "star_struck".data, "drooling".data, "yum".data,
   "fire".data, "chef".data, "kiss".data]

/-- Positive substrings for reactions on positive replies (line 706). -/
def posReplyPosPats : List (List Char) :=
  ["heart".data, "star".data, "clap".data, "party".data,
   "raised_hands".data]

/-- Enthusiastic substrings for reactions on non-positive replies (line 712). -/
def enthReplyNegPats : List (List Char) :=
  ["heart_eyes".data, "star_struck".data, "drooling".data, "yum".data,
   "fire".data]

/-- Positive substrings for reactions on non-positive replies (line 714). -/
def posReplyNegPats : List (List Char) :=
  ["heart".data, "star".data, "thumbsup".data, "+1".data, "check".data]

/-- Contribution of one reaction on a thread reply (lines 692-717);
`isPositive` is whether the reply's own text-sentiment is `> 0`,
`resched` the root message's rescheduling flag. -/
def replyReactionScore (isPositive resched : Bool) (r : Reaction) : Int :=
  let name := toLowerL r.name
  if isPositive then
    if anyIn agreement_emojis name then halfIf resched ((r.count : Int) * 3)
    else if anyIn enthReplyPosPats name then halfIf resched ((r.count : Int) * 3)
    else if anyIn posReplyPosPats name then halfIf resched ((r.count : Int) * 2)
    else halfIf resched ((r.count : Int) * 1)
  else
    if anyIn enthReplyNegPats name then halfIf resched ((r.count : Int) * 2)
    else if anyIn posReplyNegPats name then halfIf resched ((r.count : Int) * 1)
    else halfIf resched ((r.count : Int) * 1)

/-- Contribution of one thread reply: its halved text sentiment plus its
reaction scores (lines 681-717). -/
def replyScore (resched : Bool) (rep : Reply) : Int :=
  let s := analyze_sentiment rep.text
  let isPositive : Bool := decide (0 < s)
  halfIf resched s + intSum (rep.reactions.map (replyReactionScore isPositive resched))

/-- `calculate_sentiment_rating(message, channel_id, thread_replies)`
(lines 640-719; the unused `channel_id` parameter is dropped): the sum of
per-reaction contributions on the root message, plus, when the reply list
is non-empty, two points per reply and each reply's own contribution —
every single contribution halved (truncated toward zero) when the root
text contains a rescheduling word. -/
def calculate_sentiment_rating (msg : Msg) (replies : List Reply) : Int :=
  let resched := anyContains rescheduling_words (toLowerL msg.text)
  let reactPart := intSum (msg.reactions.map (fun r => halfIf resched (reactionBase r)))
  let replyPart :=
    if replies.isEmpty then 0
    else halfIf resched ((replies.length : Int) * 2)
         + intSum (replies.map (replyScore resched))
  reactPart + replyPart


/-!  ## `is_lunch_message` (lines 209-298)  -/

/-- "Next week" preview marker phrases (line 216). -/
def nextWeekPhrases : List (List Char) :=
  ["next week".data, "next week -".data,
   ("here".data ++ [apos] ++ "s what to expect".data),
   "anchor day lunch menu".data]

/-- Weekday names for the weekly-preview exclusion regex (line 221). -/
def weekdayWords : List (List Char) :=
  ["monday".data, "tuesday".data, "wednesday".data, "thursday".data,
   "friday".data, "saturday".data, "sunday".data]

/-- Known vendor tokens for the weekly-preview exclusion regex (line 221). -/
def previewVendorWords : List (List Char) :=
  ["makers".data, "o&b".data, "calii".data, "pizza".data,
   "pizzaiolo".data]

/-- Generic leftmost-search: does the predicate hold at some suffix? -/
def scanAny (p : List Char → Bool) : List Char → Bool
  | [] => p []
  | c :: cs => p (c :: cs) || scanAny p cs

/-- The exclusion regex
`(monday|…|sunday):\s*(makers|o&b|calii|pizza|pizzaiolo)` (line 221),
searched in the lowercased text. -/
def weekdayColonVendor (t : List Char) : Bool :=
  scanAny (fun s => weekdayWords.any (fun wd =>
    startsWithL wd s &&
      (match s.drop wd.length with
       | ':' :: r => previewVendorWords.any
           (fun v => startsWithL v (r.dropWhile isPySpace))
       | _ => false))) t

/-- Secondary-post marker words (line 225). -/
def secondaryWords : List (List Char) :=
  ["leftover".data, "missed out".data, "reminder".data, "mixer".data]

/-- Arrival/readiness phrases (lines 258-263). -/
def arrivalPhrases : List (List Char) :=
  ["lunch has arrived".data, "lunch is ready".data, "lunch is here".data,
   "lunch is very".data, "lunch is".data, "lunch today".data]

/-- Explicit menu trigger phrases (lines 266-269). -/
def menuTriggerPhrases : List (List Char) :=
  ["menu:".data, "options:".data, "on the menu".data,
   ("what".data ++ [apos] ++ "s on the menu".data),
   ("what".data ++ [apos] ++ "s in the menu".data),
   ("here".data ++ [apos] ++ "s what".data)]

/-- Dietary tags of the bracket regex
`\([^)]*?(?:GF|DF|VG|V|HALAL|NF)[^)]*?\)`. -/
def dietaryTags : List (List Char) :=
  ["GF".data, "DF".data, "VG".data, "V".data, "HALAL".data, "NF".data]

/-- Does a dietary tag occur in a bracket segment (case-insensitively
when `ci`)? -/
def tagInSeg (ci : Bool) (seg : List Char) : Bool :=
  dietaryTags.any (fun tag =>
    if ci then containsSub (toLowerL tag) (toLowerL seg)
    else containsSub tag seg)

/-- Leftmost match of `\([^)]*?(?:GF|DF|VG|V|HALAL|NF)[^)]*?\)`:
returns the index just after the closing `)` of the first parenthetical
that contains a tag before its first `)`.  Case-insensitive when `ci`
(the source uses `re.IGNORECASE` only at line 522). -/
def findDietaryEndGo (ci : Bool) : List Char → Nat → Option Nat
  | [], _ => none
  | c :: rest, i =>
    if c = '(' then
      let seg := rest.takeWhile (fun d => d ≠ ')')
      if seg.length < rest.length && tagInSeg ci seg then
        some (i + 1 + seg.length + 1)
      else findDietaryEndGo ci rest (i + 1)
    else findDietaryEndGo ci rest (i + 1)

/-- Boolean form of the dietary-bracket search. -/
def hasDietary (ci : Bool) (t : List Char) : Bool :=
  (findDietaryEndGo ci t 0).isSome

/-- Food/vendor-context keywords (lines 282-287). -/
def foodWords : List (List Char) :=
  ["pizza".data, "bowl".data, "salad".data, "chicken".data, "salmon".data,
   "beef".data, "pork".data, "sandwich".data, "wrap".data, "taco".data,
   "burrito".data, "soup".data, "rice".data, "noodles".data, "pasta".data,
   "catering".data, "vendor".data, "maker".data, "calii".data,
   "african".data, "thai".data, "mexican".data, "japanese".data,
   "chinese".data, "indian".data, "italian".data, "toben".data,
   "choose".data]

/-- Tail of the pattern `KW\s+[A-Z][CLS]+` under `re.IGNORECASE`:
at least one whitespace, then a letter, then at least one character of
the class `cls`. -/
def tailSpLetterCls (cls : Char → Bool) : List Char → Bool
  | c :: cs =>
    isPySpace c &&
      (match cs.dropWhile isPySpace with
       | d :: e :: _ => isLetterL d && cls e
       | _ => false)
  | [] => false

/-- Search for `(?:kw₁|kw₂|…)\s+[A-Z][CLS]+` (IGNORECASE) anywhere in the
text. -/
def kwSpLetterCls (kws : List (List Char)) (cls : Char → Bool) (t : List Char) : Bool :=
  scanAny (fun s => kws.any (fun kw =>
    startsWithCI kw s && tailSpLetterCls cls (s.drop kw.length))) t

/-- The class `[a-zA-Z\s&]` of the line-279 "from vendor" pattern. -/
def clsFromVendor (c : Char) : Bool := isLetterL c || isPySpace c || c = '&'

/-- The class `[a-zA-Z\s&'-]` of the vendor-capture patterns. -/
def clsVendor (c : Char) : Bool :=
  isLetterL c || isPySpace c || c = '&' || c = apos || c = '-'

/-- `is_lunch_message(message)` (lines 209-298). -/
def is_lunch_message (m : Msg) : Bool :=
  let tl := toLowerL m.text
  if anyContains nextWeekPhrases tl then false
  else if weekdayColonVendor tl then false
  else
    let isSecondary := anyContains secondaryWords tl
    if isSecondary then false
    else if !(containsSub "@toronto".data tl || containsSub "<!subteam".data tl) then false
    else
      let isLunchTime : Bool :=
        match m.ts with
        | some ti => ti.hour == 11 || (ti.hour == 12 && ti.minute ≤ 15)
        | none => false
      let hasArrival := anyContains arrivalPhrases tl
      let hasMenuTrigger := anyContains menuTriggerPhrases tl
      -- Line 272 searches the uppercase tag alternation in the
      -- lowercased text without IGNORECASE.
      let hasMenuItems := hasDietary false tl
      -- Line 276: `(?:today\s+)?we have` (IGNORECASE) matches iff the
      -- text contains "we have" (the prefix is optional).
      let hasWeHave := containsSub "we have".data tl
      let hasFromVendor := kwSpLetterCls ["from".data] clsFromVendor m.text
      let hasFood := anyContains foodWords tl
      (isLunchTime || hasArrival || hasMenuTrigger ||
        (hasWeHave && hasFood) || hasFromVendor || hasMenuItems) && !isSecondary


/-!  ## `get_message_priority_score` (lines 777-817)  -/

/-- Menu-trigger phrases of the +200 priority bonus (line 809). -/
def priorityTriggerPhrases : List (List Char) :=
  [("here".data ++ [apos] ++ "s what".data),
   ("what".data ++ [apos] ++ "s on the menu".data),
   ("what".data ++ [apos] ++ "s in the menu".data)]

/-- `get_message_priority_score(message, date_obj)` (lines 777-817),
taking the message text and the hour/minute of its timestamp. -/
def get_message_priority_score (text : List Char) (hour minute : Nat) : Int :=
  let timeMinutes : Int := (hour : Int) * 60 + (minute : Int)
  let dist : Int := ((timeMinutes - 720).natAbs : Int)
  let timeScore : Int :=
    if 660 ≤ timeMinutes ∧ timeMinutes ≤ 780 then 1000 - dist else 500 - dist
  let tl := toLowerL text
  let b1 : Int := if containsSub "lunch has arrived".data tl then 500 else 0
  let b2 : Int := if hasDietary false tl then 300 else 0
  let b3 : Int := if anyContains priorityTriggerPhrases tl then 200 else 0
  let b4 : Int :=
    if kwSpLetterCls ["we have".data, "today we have".data, "from".data] clsVendor tl
    then 100 else 0
  timeScore + b1 + b2 + b3 + b4


/-!  ## `extract_vendor_name` (lines 301-416)  -/

/-- Named HTML entities modelled for `html.unescape` (common Slack
payload entities; see the header note — proofs use only that
unescaping never lengthens the text). -/
def entityPairs : List (List Char × Char) :=
  [("&amp;".data, '&'), ("&lt;".data, '<'), ("&gt;".data, '>'),
   ("&quot;".data, '"'), ("&#39;".data, apos), ("&nbsp;".data, ' ')]

/-- Fuelled scan replacing entity references left to right. -/
def htmlUnescape : Nat → List Char → List Char
  | 0, l => l
  | _ + 1, [] => []
  | fuel + 1, c :: cs =>
    if c = '&' then
      match entityPairs.find? (fun p => startsWithL p.1 (c :: cs)) with
      | some p => p.2 :: htmlUnescape fuel ((c :: cs).drop p.1.length)
      | none => c :: htmlUnescape fuel cs
    else c :: htmlUnescape fuel cs

/-- `html.unescape(text)` (model). -/
def unescape (t : List Char) : List Char := htmlUnescape (t.length + 1) t

/-- Consume `https?://` after an opening `<`; returns the rest. -/
def afterScheme (l : List Char) : Option (List Char) :=
  if startsWithL "http".data l then
    let r := l.drop 4
    if startsWithL "s://".data r then some (r.drop 4)
    else if startsWithL "://".data r then some (r.drop 3)
    else none
  else none

/-- One match of `<https?://[^|>]+\|([^>]+)>` at an opening `<`:
returns (label, rest-after-`>`). -/
def linkLabelTail (cs : List Char) : Option (List Char × List Char) :=
  match afterScheme cs with
  | none => none
  | some r =>
    let run1 := r.takeWhile (fun c => c ≠ '|' && c ≠ '>')
    if run1.isEmpty then none
    else
      match r.drop run1.length with
      | '|' :: r2 =>
        let label := r2.takeWhile (fun c => c ≠ '>')
        if label.isEmpty then none
        else
          match r2.drop label.length with
          | '>' :: rest => some (label, rest)
          | _ => none
      | _ => none

/-- `re.sub(r'<https?://[^|>]+\|([^>]+)>', r'\1', text)` (line 314). -/
def linkSub1Go : Nat → List Char → List Char
  | 0, l => l
  | _ + 1, [] => []
  | fuel + 1, c :: cs =>
    if c = '<' then
      match linkLabelTail cs with
      | some (label, rest) => label ++ linkSub1Go fuel rest
      | none => c :: linkSub1Go fuel cs
    else c :: linkSub1Go fuel cs

/-- One match of `<https?://[^>]+>` at an opening `<`: rest after `>`. -/
def linkBareTail (cs : List Char) : Option (List Char) :=
  match afterScheme cs with
  | none => none
  | some r =>
    let run := r.takeWhile (fun c => c ≠ '>')
    if run.isEmpty then none
    else
      match r.drop run.length with
      | '>' :: rest => some rest
      | _ => none

/-- `re.sub(r'<https?://[^>]+>', '', text)` (line 315). -/
def linkSub2Go : Nat → List Char → List Char
  | 0, l => l
  | _ + 1, [] => []
  | fuel + 1, c :: cs =>
    if c = '<' then
      match linkBareTail cs with
      | some rest => linkSub2Go fuel rest
      | none => c :: linkSub2Go fuel cs
    else c :: linkSub2Go fuel cs

/-- One match of the unterminated `<https?://[^>]+` at `<`: the rest. -/
def linkOpenTail (cs : List Char) : Option (List Char) :=
  match afterScheme cs with
  | none => none
  | some r =>
    let run := r.takeWhile (fun c => c ≠ '>')
    if run.isEmpty then none else some (r.drop run.length)

/-- `re.sub(r'<https?://[^>]+', '', text)` (line 316). -/
def linkSub3Go : Nat → List Char → List Char
  | 0, l => l
  | _ + 1, [] => []
  | fuel + 1, c :: cs =>
    if c = '<' then
      match linkOpenTail cs with
      | some rest => linkSub3Go fuel rest
      | none => c :: linkSub3Go fuel cs
    else c :: linkSub3Go fuel cs

/-- The three Slack-link cleanup substitutions, in source order. -/
def linkClean (t : List Char) : List Char :=
  let a := linkSub1Go (t.length + 1) t
  let b := linkSub2Go (a.length + 1) a
  linkSub3Go (b.length + 1) b

/-- `re.sub(r':\w+(?:-\w+)*:', '', text)` — emoji-name removal
(lines 338, 379, 393, 456). -/
def emojiSubGo : Nat → List Char → List Char
  | 0, l => l
  | _ + 1, [] => []
  | fuel + 1, c :: cs =>
    if c = ':' then
      match emojiTokenAt (fun s => s = '-') cs with
      | some (_, rest) => emojiSubGo fuel rest
      | none => c :: emojiSubGo fuel cs
    else c :: emojiSubGo fuel cs

/-- Wrapper for the emoji-name removal. -/
def emojiSub (t : List Char) : List Char := emojiSubGo (t.length + 1) t

/-- `re.sub(r'<[^>]+>', '', vendor)` (lines 341, 380, 394). -/
def angleSubGo : Nat → List Char → List Char
  | 0, l => l
  | _ + 1, [] => []
  | fuel + 1, c :: cs =>
    if c = '<' then
      let run := cs.takeWhile (fun d => d ≠ '>')
      if !run.isEmpty then
        match cs.drop run.length with
        | '>' :: rest => angleSubGo fuel rest
        | _ => c :: angleSubGo fuel cs
      else c :: angleSubGo fuel cs
    else c :: angleSubGo fuel cs

/-- Wrapper for the `<...>` removal. -/
def angleSub (t : List Char) : List Char := angleSubGo (t.length + 1) t

/-- `$` without `re.MULTILINE`: end of text, or just before a final
newline. -/
def endAnchor : List Char → Bool
  | [] => true
  | [c] => c = '\n'
  | _ => false

/-- The remainder a `.*$` match leaves behind (`.` does not match `\n`):
everything up to the end is consumed, a single final newline survives. -/
def dotStarEndRem (rest : List Char) : Option (List Char) :=
  if rest.all (fun c => c ≠ '\n') then some []
  else if rest.dropLast.all (fun c => c ≠ '\n') && rest.getLast? == some '\n' then
    some ['\n']
  else none

/-- Replace the leftmost match of `m` (which returns the text after the
matched span) by nothing; used for the `…$`-anchored substitutions. -/
def subLeftmost (m : List Char → Option (List Char)) : List Char → List Char
  | [] => (m []).getD []
  | c :: cs =>
    match m (c :: cs) with
    | some rest => rest
    | none => c :: subLeftmost m cs

/-- Matcher of `\s+(kw₁|kw₂|…).*$` (IGNORECASE): at least one whitespace,
a keyword, then the rest of the line to the end. -/
def trailKwMatcher (kws : List (List Char)) : List Char → Option (List Char)
  | [] => none
  | c :: cs =>
    if isPySpace c then
      let r := (c :: cs).dropWhile isPySpace
      match kws.find? (fun kw => startsWithCI kw r) with
      | some kw => dotStarEndRem (r.drop kw.length)
      | none => none
    else none

/-- Matcher of `\s*\([^)]*\)\s*$`: an optionally space-led parenthetical
followed only by whitespace. -/
def trailParenMatcher (s : List Char) : Option (List Char) :=
  let r := s.dropWhile isPySpace
  match r with
  | '(' :: r2 =>
    let inner := r2.takeWhile (fun d => d ≠ ')')
    match r2.drop inner.length with
    | ')' :: r3 => if r3.all isPySpace then some [] else none
    | _ => none
  | _ => none

/-- The punctuation class `[.,;:!?]`. -/
def isTrailPunct (c : Char) : Bool :=
  c = '.' || c = ',' || c = ';' || c = ':' || c = '!' || c = '?'

/-- Matcher of `[.,;:!?]+$`: a maximal trailing punctuation run at the
end (or just before a final newline). -/
def trailPunctMatcher (s : List Char) : Option (List Char) :=
  match s with
  | [] => none
  | c :: cs =>
    if isTrailPunct c then
      let run := (c :: cs).takeWhile isTrailPunct
      let r := (c :: cs).drop run.length
      if endAnchor r then some r else none
    else none

/-- Matcher of `\s+with\s+.*$` (IGNORECASE). -/
def trailWithMatcher (s : List Char) : Option (List Char) :=
  match s with
  | [] => none
  | c :: cs =>
    if isPySpace c then
      let r := (c :: cs).dropWhile isPySpace
      if startsWithCI "with".data r then
        let r2 := r.drop 4
        match r2 with
        | d :: _ =>
          if isPySpace d then dotStarEndRem (r2.dropWhile isPySpace) else none
        | [] => none
      else none
    else none

/-- One separator match of `re.split(r'\s+and\s+', …, re.IGNORECASE)`:
returns the text after the separator. -/
def andSepMatcher (s : List Char) : Option (List Char) :=
  match s with
  | [] => none
  | c :: cs =>
    if isPySpace c then
      let r := (c :: cs).dropWhile isPySpace
      if startsWithCI "and".data r then
        let r2 := r.drop 3
        match r2 with
        | d :: _ => if isPySpace d then some (r2.dropWhile isPySpace) else none
        | [] => none
      else none
    else none

/-- `re.split(r'\s+and\s+', v, flags=re.IGNORECASE)`. -/
def splitAndGo : Nat → List Char → List Char → List (List Char)
  | 0, cur, l => [cur ++ l]
  | _ + 1, cur, [] => [cur]
  | fuel + 1, cur, c :: cs =>
    match andSepMatcher (c :: cs) with
    | some rest => cur :: splitAndGo fuel [] rest
    | none => splitAndGo fuel (cur ++ [c]) cs

/-- Wrapper for the `and`-split. -/
def splitAnd (v : List Char) : List (List Char) := splitAndGo (v.length + 1) [] v

/-- Per-part cleanup inside the multi-vendor branch of the pattern loop
(lines 349-356): returns `none` when the part is dropped. -/
def cleanPartMain (part : List Char) : Option (List Char) :=
  let p1 := subLeftmost (trailKwMatcher ["today".data, "with".data]) part
  let p2 := stripWS (subLeftmost trailParenMatcher p1)
  let p3 := stripWS (subLeftmost trailPunctMatcher p2)
  if !p3.isEmpty && decide (2 < p3.length) && !startsWithL "<".data p3 then some p3
  else none

/-- Per-part cleanup inside the multi-vendor branch of fallback 2
(lines 399-404): same subs, but with the full URL-fragment test. -/
def cleanPartFb2 (part : List Char) : Option (List Char) :=
  let p1 := subLeftmost (trailKwMatcher ["today".data, "with".data]) part
  let p2 := stripWS (subLeftmost trailParenMatcher p1)
  let p3 := stripWS (subLeftmost trailPunctMatcher p2)
  if !p3.isEmpty && decide (2 < p3.length) &&
      !(startsWithL "http".data p3 || startsWithL "<".data p3 ||
        containsSub "://".data p3) then
    some p3
  else none

/-- Join multi-vendor parts with `' & '` (line 358). -/
def joinAmp (parts : List (List Char)) : List Char :=
  List.intercalate " & ".data parts

/-- Candidate cleanup of the main pattern loop (lines 336-368). -/
def cleanupMain (cap : List Char) : List Char :=
  let v := stripWS cap
  let v := stripWS (emojiSub v)
  let v := angleSub v
  let v2 :=
    if containsSub " and ".data (toLowerL v) then
      let parts := (splitAnd v).filterMap cleanPartMain
      if parts.isEmpty then v else joinAmp parts
    else
      let a := subLeftmost (trailKwMatcher
        ["today".data, "and".data, "here".data, "menu".data,
         "arrived".data, "with".data]) v
      let b := subLeftmost trailParenMatcher a
      stripWS (subLeftmost trailPunctMatcher b)
  stripWS v2

/-- Candidate cleanup of fallback 1 (lines 378-381). -/
def cleanupFb1 (cap : List Char) : List Char :=
  let v := stripWS cap
  let v := stripWS (emojiSub v)
  let v := angleSub v
  stripWS (subLeftmost trailPunctMatcher v)

/-- Candidate cleanup of fallback 2 (lines 392-410). -/
def cleanupFb2 (cap : List Char) : List Char :=
  let v := stripWS cap
  let v := stripWS (emojiSub v)
  let v := angleSub v
  if containsSub " and ".data (toLowerL v) then
    let parts := (splitAnd v).filterMap cleanPartFb2
    if parts.isEmpty then v else joinAmp parts
  else
    let a := subLeftmost trailWithMatcher v
    stripWS (subLeftmost trailPunctMatcher a)

/-- The URL-fragment rejection test (lines 370, 383, 412). -/
def urlish (v : List Char) : Bool :=
  startsWithL "http".data v || startsWithL "<".data v ||
    containsSub "://".data v

/-- The final transformation applied at every return site:
`html.unescape(re.sub(r'\*+', '', vendor).strip())`. -/
def finalizeVendor (v : List Char) : List Char :=
  unescape (stripWS (v.filter (fun c => c ≠ '*')))

/-- The accept step shared by every return site: reject URL fragments,
require the cleaned length in `(2, bound)`, and return the finalized
string. -/
def acceptVendor (bound : Nat) (v : List Char) : Option (List Char) :=
  if urlish v then none
  else if 2 < v.length ∧ v.length < bound then some (finalizeVendor v)
  else none

/-- First-some choice on options (Python's fall-through control flow). -/
def optOr (a b : Option (List Char)) : Option (List Char) :=
  match a with
  | some x => some x
  | none => b

/-- Generic leftmost regex search: try the matcher at every suffix. -/
def scanFirst (m : List Char → Option (List Char)) : List Char → Option (List Char)
  | [] => m []
  | c :: cs =>
    match m (c :: cs) with
    | some g => some g
    | none => scanFirst m cs

/-- Lazy capture `(CLS*?)` stopping at the first position where the
terminator matches; fails when a captured character leaves the class. -/
def capLazy (ds : Char → Bool) (term : List Char → Bool) : List Char → Option (List Char)
  | [] => if term [] then some [] else none
  | c :: cs =>
    if term (c :: cs) then some []
    else if ds c then (capLazy ds term cs).map (fun r => c :: r)
    else none

/-- Lazy capture `(CLS+?)`: at least one character. -/
def capLazy1 (ds : Char → Bool) (term : List Char → Bool) : List Char → Option (List Char)
  | [] => none
  | c :: cs =>
    if ds c then (capLazy ds term cs).map (fun r => c :: r) else none

/-- The class `.` (anything but newline). -/
def dotCls (c : Char) : Bool := c ≠ '\n'

/-- Terminator `(?:\s*!|\.|$)` of the `from`-style patterns. -/
def term1 (s : List Char) : Bool :=
  (match s.dropWhile isPySpace with
   | '!' :: _ => true
   | _ => false) ||
  (match s with
   | '.' :: _ => true
   | _ => false) ||
  endAnchor s

/-- `\s+KW` (IGNORECASE) at the head of `s`. -/
def wsKw (kw : List Char) (s : List Char) : Bool :=
  match s with
  | c :: cs => isPySpace c && startsWithCI kw ((c :: cs).dropWhile isPySpace)
  | [] => false

/-- `\s+and\s+[A-Z]` (IGNORECASE) at the head of `s`. -/
def wsAndLetter (s : List Char) : Bool :=
  match s with
  | c :: _ =>
    isPySpace c &&
      (let r := s.dropWhile isPySpace
       startsWithCI "and".data r &&
         (match r.drop 3 with
          | d :: _ =>
            isPySpace d &&
              (match (r.drop 3).dropWhile isPySpace with
               | e :: _ => isLetterL e
               | [] => false)
          | [] => false))
  | [] => false

/-- `\s+with\s+` (IGNORECASE) at the head of `s`. -/
def wsWithWs (s : List Char) : Bool :=
  match s with
  | c :: _ =>
    isPySpace c &&
      (let r := s.dropWhile isPySpace
       startsWithCI "with".data r &&
         (match r.drop 4 with
          | d :: _ => isPySpace d
          | [] => false))
  | [] => false

/-- Terminator `(?:\s+today|:|\s+and\s+[A-Z]|\s+with\s+|\.|$)` of the
`we have` patterns 3 and 4. -/
def termMain (s : List Char) : Bool :=
  wsKw "today".data s ||
  (match s with | ':' :: _ => true | _ => false) ||
  wsAndLetter s ||
  wsWithWs s ||
  (match s with | '.' :: _ => true | _ => false) ||
  endAnchor s

/-- Terminator `(?::|\.)` of pattern 5. -/
def term5 (s : List Char) : Bool :=
  match s with
  | ':' :: _ => true
  | '.' :: _ => true
  | _ => false

/-- Terminator `\s today` (a literal space then `today`) of pattern 6. -/
def term6 (s : List Char) : Bool := startsWithCI " today".data s

/-- The group `([A-Z][a-zA-Z\s&'-]+?)` followed by `(?:\s*!|\.|$)`. -/
def p1Group (r : List Char) : Option (List Char) :=
  match r with
  | c :: cs =>
    if isLetterL c then (capLazy1 clsVendor term1 cs).map (fun g => c :: g)
    else none
  | [] => none

/-- `\s+` then the pattern-1 group, as after the literal `from`. -/
def fromTail (s : List Char) : Option (List Char) :=
  match s with
  | c :: _ =>
    if isPySpace c then p1Group (s.dropWhile isPySpace) else none
  | [] => none

/-- Pattern 1 / fallback 1: `from\s+([A-Z][a-zA-Z\s&'-]+?)(?:\s*!|\.|$)`
(IGNORECASE), leftmost search. -/
def searchP1 (t : List Char) : Option (List Char) :=
  scanFirst (fun s =>
    if startsWithCI "from".data s then fromTail (s.drop 4) else none) t

/-- `\s+from\s+GROUP(TERM)` tried at a gap position of pattern 2. -/
def wsFromTry (s : List Char) : Option (List Char) :=
  match s with
  | c :: _ =>
    if isPySpace c then
      let r := s.dropWhile isPySpace
      if startsWithCI "from".data r then fromTail (r.drop 4) else none
    else none
  | [] => none

/-- The lazy gap `[^f]*?` of pattern 2, growing until
`\s+from\s+GROUP(TERM)` matches. -/
def p2FromScan : List Char → Option (List Char)
  | [] => none
  | c :: cs =>
    match wsFromTry (c :: cs) with
    | some g => some g
    | none => if c ≠ 'f' && c ≠ 'F' then p2FromScan cs else none

/-- Descending backtracking loop (greedy `\s+`: longest first). -/
def downLoop (f : Nat → Option (List Char)) : Nat → Option (List Char)
  | 0 => none
  | i + 1 =>
    match f (i + 1) with
    | some x => some x
    | none => downLoop f i

/-- Pattern 2 after the literal `choose`:
`\s+(?:a\s+)?[^f]*?\s+from\s+GROUP(TERM)` with greedy whitespace and
greedy optional `a\s+`. -/
def p2AfterChoose (s : List Char) : Option (List Char) :=
  let n := (s.takeWhile isPySpace).length
  if n = 0 then none
  else
    downLoop (fun i =>
      let r := s.drop i
      let withA : Option (List Char) :=
        match r with
        | c :: cs =>
          if c = 'a' || c = 'A' then
            let m := (cs.takeWhile isPySpace).length
            if m = 0 then none
            else downLoop (fun j => p2FromScan (cs.drop j)) m
          else none
        | [] => none
      match withA with
      | some g => some g
      | none => p2FromScan r) n

/-- Pattern 2:
`choose\s+(?:a\s+)?[^f]*?\s+from\s+([A-Z][a-zA-Z\s&'-]+?)(?:\s*!|\.|$)`. -/
def searchP2 (t : List Char) : Option (List Char) :=
  scanFirst (fun s =>
    if startsWithCI "choose".data s then p2AfterChoose (s.drop 6) else none) t

/-- Generic `KW(CLS*?)(TERM)` leftmost search with lazy capture. -/
def searchKwCap (kw : List Char) (ds : Char → Bool) (term : List Char → Bool)
    (t : List Char) : Option (List Char) :=
  scanFirst (fun s =>
    if startsWithCI kw s then capLazy ds term (s.drop kw.length) else none) t

/-- The gap `.*?` of pattern 5, growing until `we have (.*?)(?::|\.)`
matches. -/
def p5Gap : List Char → Option (List Char)
  | [] => none
  | c :: cs =>
    match
      (if startsWithCI "we have ".data (c :: cs) then
        capLazy dotCls term5 ((c :: cs).drop 8)
      else none) with
    | some g => some g
    | none => if c ≠ '\n' then p5Gap cs else none

/-- Pattern 5: `lunch has arrived.*?we have (.*?)(?::|\.)`. -/
def searchP5 (t : List Char) : Option (List Char) :=
  scanFirst (fun s =>
    if startsWithCI "lunch has arrived".data s then p5Gap (s.drop 17)
    else none) t

/-- The class `[^:\.!?]` of the fallback-2 capture. -/
def fb2Cls (c : Char) : Bool :=
  !(c = ':' || c = '.' || c = '!' || c = '?')

/-- Terminator
`(?:\s+today|\s+and\s+[A-Z]|\s+with\s+|\s*:|\.|!|\?|$)` of fallback 2. -/
def term2 (s : List Char) : Bool :=
  wsKw "today".data s ||
  wsAndLetter s ||
  wsWithWs s ||
  (match s.dropWhile isPySpace with | ':' :: _ => true | _ => false) ||
  (match s with | '.' :: _ => true | '!' :: _ => true | '?' :: _ => true | _ => false) ||
  endAnchor s

/-- Fallback 2 after the literal `we have`: `\s+([^:\.!?]+?)(TERM)` with
greedy leading whitespace. -/
def fb2Tail (s : List Char) : Option (List Char) :=
  let n := (s.takeWhile isPySpace).length
  if n = 0 then none
  else downLoop (fun i => capLazy1 fb2Cls term2 (s.drop i)) n

/-- Fallback 2:
`we have\s+([^:\.!?]+?)(?:\s+today|\s+and\s+[A-Z]|\s+with\s+|\s*:|\.|!|\?|$)`. -/
def searchFb2 (t : List Char) : Option (List Char) :=
  scanFirst (fun s =>
    if startsWithCI "we have".data s then fb2Tail (s.drop 7) else none) t

/-- One iteration of the pattern loop: capture, clean, accept-or-continue. -/
def tryPattern (cap : Option (List Char)) : Option (List Char) :=
  match cap with
  | some g => acceptVendor 100 (cleanupMain g)
  | none => none

/-- Fallback 1 (lines 376-386): re-run of the `from` pattern with its
lighter cleanup and the `(2, 50)` length window. -/
def fallbackFrom (t : List Char) : Option (List Char) :=
  match searchP1 t with
  | some g => acceptVendor 50 (cleanupFb1 g)
  | none => none

/-- Fallback 2 (lines 388-414): the loose `we have` capture with the
`(2, 100)` length window. -/
def fallbackWeHave (t : List Char) : Option (List Char) :=
  match searchFb2 t with
  | some g => acceptVendor 100 (cleanupFb2 g)
  | none => none

/-- The ordered main pattern pass (lines 324-373). -/
def vendorPatternPass (t : List Char) : Option (List Char) :=
  optOr (tryPattern (searchP1 t))
    (optOr (tryPattern (searchP2 t))
      (optOr (tryPattern (searchKwCap "today we have ".data dotCls termMain t))
        (optOr (tryPattern (searchKwCap "we have ".data dotCls termMain t))
          (optOr (tryPattern (searchP5 t))
            (tryPattern (searchKwCap "arrived - we have ".data dotCls term6 t))))))

/-- `extract_vendor_name(message)` (lines 301-416), taking the message
text. -/
def extract_vendor_name (t0 : List Char) : List Char :=
  let t := linkClean (unescape t0)
  match vendorPatternPass t with
  | some v => v
  | none =>
    match fallbackFrom t with
    | some v => v
    | none =>
      match fallbackWeHave t with
      | some v => v
      | none => "N/A".data


/-!  ## `extract_menu_items` (lines 419-552)  -/

/-- Menu-region start indicator phrases (line 429). -/
def start_indicators : List (List Char) :=
  [("here".data ++ [apos] ++ "s what".data), "menu:".data, "options:".data,
   "today we have".data, "in the menu".data, "we have".data]

/-- Menu-region stop keywords (line 430). -/
def stop_keywords : List (List Char) :=
  ["please check".data, "enjoy".data, "happy".data, "@toronto".data]

/-- Ingredient-description keywords (line 432). -/
def ingredient_keywords : List (List Char) :=
  ["sauce".data, "seasonal".data, "pickled".data, "seeds".data,
   "dressing".data, "marinated".data, "topped with".data,
   "served with".data]

/-- The leading-bullet class of line 457; the source file stores the
Mac-Roman mojibake of `•` (the three characters U+201A, U+00C4, U+00A2)
alongside `-` and `*`. -/
def isBulletChar (c : Char) : Bool :=
  c = '-' || c = Char.ofNat 0x201A || c = Char.ofNat 0xC4 ||
    c = Char.ofNat 0xA2 || c = '*'

/-- `re.sub(r'^[-…*]\s*', '', line)` (line 457): one leading bullet
character and the following whitespace (anchored, so at most one match). -/
def bulletSub (l : List Char) : List Char :=
  match l with
  | c :: cs => if isBulletChar c then cs.dropWhile isPySpace else l
  | [] => []

/-- Split a text into lines on `\n` (Python `text.split('\n')`). -/
def splitNLGo : List Char → List Char → List (List Char)
  | cur, [] => [cur]
  | cur, c :: cs =>
    if c = '\n' then cur :: splitNLGo [] cs else splitNLGo (cur ++ [c]) cs

/-- Wrapper for line splitting. -/
def splitNL (t : List Char) : List (List Char) := splitNLGo [] t

/-- Strategy-1 split of a line at `\)(?=[A-Z][a-z])` boundaries
(lines 465-482): cut immediately after a `)` that is followed by a
capitalized word. -/
def splitStrat1 : Nat → List Char → List Char → List (List Char)
  | 0, cur, l => [cur ++ l]
  | _ + 1, cur, [] => [cur]
  | fuel + 1, cur, c :: cs =>
    if c = ')' then
      match cs with
      | d :: e :: _ =>
        if isUpperL d && isLowerL e then (cur ++ [')']) :: splitStrat1 fuel [] cs
        else splitStrat1 fuel (cur ++ [c]) cs
      | _ => splitStrat1 fuel (cur ++ [c]) cs
    else splitStrat1 fuel (cur ++ [c]) cs

/-- The separator tail of strategy 2, `\s*(?:,\s*|and\s+)` after a `)`
(IGNORECASE): returns the rest after the separator. -/
def sepAfterParen (cs : List Char) : Option (List Char) :=
  let r := cs.dropWhile isPySpace
  match r with
  | ',' :: r2 => some (r2.dropWhile isPySpace)
  | _ =>
    if startsWithCI "and".data r then
      match r.drop 3 with
      | d :: _ => if isPySpace d then some ((r.drop 3).dropWhile isPySpace) else none
      | [] => none
    else none

/-- Strategy-2 split of a line at `\)\s*(?:,\s*|and\s+)` boundaries
(lines 487-502), non-overlapping left to right. -/
def splitStrat2 : Nat → List Char → List Char → List (List Char)
  | 0, cur, l => [cur ++ l]
  | _ + 1, cur, [] => [cur]
  | fuel + 1, cur, c :: cs =>
    if c = ')' then
      match sepAfterParen cs with
      | some rest => (cur ++ [')']) :: splitStrat2 fuel [] rest
      | none => splitStrat2 fuel (cur ++ [c]) cs
    else splitStrat2 fuel (cur ++ [c]) cs

/-- Split one cleaned line into candidate dish entries (lines 461-505):
strategy 1, else strategy 2, else the whole line. -/
def splitItems (lc : List Char) : List (List Char) :=
  let s1 := splitStrat1 (lc.length + 1) [] lc
  if s1.length > 1 then (s1.map stripWS).filter (fun i => i.length > 5)
  else
    let s2 := splitStrat2 (lc.length + 1) [] lc
    if s2.length > 1 then (s2.map stripWS).filter (fun i => i.length > 5)
    else [lc]

/-- Positions of the commas of an entry (`item.count(',')` companions,
lines 529-536). -/
def commaIdxs (l : List Char) : List Nat :=
  (l.enum.filter (fun p => p.2 = ',')).map (fun p => p.1)

/-- Process one candidate entry (lines 508-544): drop short entries and
ingredient-description lines, truncate to a display name, deduplicate. -/
def processItem (acc : List (List Char)) (item0 : List Char) : List (List Char) :=
  let item := stripWS item0
  if item.length < 5 then acc
  else
    let il := toLowerL item
    let ingredientCount := ingredient_keywords.countP (fun w => containsSub w il)
    if 2 ≤ ingredientCount ∧ (60 < item.length ∨ 3 < item.count ',') then acc
    else
      let display :=
        match findDietaryEndGo true item 0 with
        | some e => item.take e
        | none =>
          if 3 < item.count ',' then
            match commaIdxs item with
            | c0 :: c1 :: _ =>
              if c1 < 60 then item.take c1
              else if c0 < 50 then item.take c0
              else item.take 60
            | [c0] => if c0 < 50 then item.take c0 else item.take 60
            | [] => item.take 60
          else if 80 < item.length then item.take 60
          else item
      let display := stripWS display
      if 3 < display.length ∧ !(acc.contains display) then acc ++ [display]
      else acc

/-- The line scan of `extract_menu_items` (lines 434-544): region state,
stop keywords, per-line splitting and entry processing. -/
def menuLoop : Bool → List (List Char) → List (List Char) → List (List Char)
  | _, acc, [] => acc
  | found, acc, line :: rest =>
    let lc := stripWS line
    if lc.isEmpty then menuLoop found acc rest
    else
      let isStart := anyContains start_indicators (toLowerL lc)
      let found2 := found || isStart
      if isStart && !hasDietary false lc then menuLoop found2 acc rest
      else if !found2 then menuLoop found acc rest
      else if anyContains stop_keywords (toLowerL lc) then acc
      else
        let lc2 := bulletSub (stripWS (emojiSub lc))
        if lc2.length < 5 then menuLoop found2 acc rest
        else menuLoop found2 ((splitItems lc2).foldl processItem acc) rest

/-- `extract_menu_items(message)` (lines 419-552), taking the message
text. -/
def extract_menu_items (t0 : List Char) : List Char :=
  let text := unescape t0
  let allItems := menuLoop false [] (splitNL text)
  if allItems.isEmpty then "Menu details in post".data
  else
    "Items: ".data ++ List.intercalate ", ".data (allItems.take 3) ++
      (if 3 < allItems.length then
        " (+".data ++ (Nat.repr (allItems.length - 3)).data ++ ")".data
      else [])


/-!  ## `analyze_lunches` core pipeline (lines 746-957)  -/

/-- A classified candidate: the message, its date (day number) and its
priority score (`lunch_by_date` values, lines 851-867). -/
structure Cand where
  msg : Msg
  day : Nat
  priority : Int
deriving Repr, DecidableEq

/-- Insert/replace a candidate in the date-keyed association list,
modelling the Python dict update of lines 845-867: an existing date
keeps its position and is replaced only by a strictly higher priority;
a new date is appended (dict insertion order). -/
def upsert : List Cand → Cand → List Cand
  | [], c => [c]
  | c' :: rest, c =>
    if c'.day = c.day then
      if c.priority > c'.priority then c :: rest else c' :: rest
    else c' :: upsert rest c

/-- One step of the classification / weekday-filter / dedup loop
(lines 819-867): skip non-lunch messages, skip messages without a
timestamp, skip weekend dates, then insert by priority. -/
def dedupStep (acc : List Cand) (m : Msg) : List Cand :=
  if !is_lunch_message m then acc
  else
    match m.ts with
    | none => acc
    | some ti =>
      if 5 ≤ ti.day % 7 then acc
      else upsert acc ⟨m, ti.day, get_message_priority_score m.text ti.hour ti.minute⟩

/-- The classification / weekday-filter / dedup pass over the message
stream (lines 819-867). -/
def dedupFold (msgs : List Msg) : List Cand :=
  msgs.foldl dedupStep []

/-- The per-day output record (lines 893-900). -/
structure LunchRecord where
  date : Nat
  vendor : List Char
  menu : List Char
  sentiment_rating : Int
  message_text : List Char
  reply_count : Nat
deriving Repr, DecidableEq

/-- Build the record of a surviving candidate (lines 870-900). -/
def mkRecord (c : Cand) : LunchRecord :=
  { date := c.day
    vendor := extract_vendor_name c.msg.text
    menu := unescape (extract_menu_items c.msg.text)
    sentiment_rating := calculate_sentiment_rating c.msg c.msg.replies
    message_text := (unescape c.msg.text).take 150
    reply_count := c.msg.replies.length }

/-- `lunch_data` before sorting, in date-iteration (insertion) order. -/
def lunchData (msgs : List Msg) : List LunchRecord :=
  (dedupFold msgs).map mkRecord

/-- Stable descending insertion by `sentiment_rating`: an element passes
only strictly greater elements, so equal ratings keep their order —
the behaviour of Python's stable `sorted(…, reverse=True)` (line 922). -/
def insDesc (x : LunchRecord) : List LunchRecord → List LunchRecord
  | [] => [x]
  | y :: ys =>
    if y.sentiment_rating ≤ x.sentiment_rating then x :: y :: ys
    else y :: insDesc x ys

/-- Stable sort by `sentiment_rating` descending (line 922). -/
def sortDesc : List LunchRecord → List LunchRecord
  | [] => []
  | x :: xs => insDesc x (sortDesc xs)

/-- `%a` weekday names, day 0 a Monday. -/
def weekdayName (d : Nat) : List Char :=
  (["Mon".data, "Tue".data, "Wed".data, "Thu".data, "Fri".data,
    "Sat".data, "Sun".data]).getD (d % 7) []

/-- A ranked output record (lines 925-929 add `rank` and `weekday`). -/
structure RankedLunch where
  rank : Nat
  weekday : List Char
  entry : LunchRecord
deriving Repr, DecidableEq

/-- `enumerate(lunch_data_sorted, 1)` (lines 925-929). -/
def withRanks : Nat → List LunchRecord → List RankedLunch
  | _, [] => []
  | i, r :: rs => ⟨i, weekdayName r.date, r⟩ :: withRanks (i + 1) rs

/-- The pure core of `analyze_lunches` (lines 746-957): classify,
deduplicate per weekday date, build records, sort by sentiment
descending, rank; `none` models the `return None` of line 917 on an
empty result. -/
def analyze_lunches (msgs : List Msg) : Option (List RankedLunch) :=
  let data := lunchData msgs
  if data.isEmpty then none
  else some (withRanks 1 (sortDesc data))

/-- Concrete sample input used by the pipeline witnesses. -/
def sampleMsgs : List Msg :=
  [⟨"@toronto".data, some ⟨0, 11, 0⟩, [], []⟩]

/-- The pipeline output on `sampleMsgs`. -/
def sampleOut : List RankedLunch :=
  [⟨1, "Mon".data,
    ⟨0, "N/A".data, "Menu details in post".data, 0, "@toronto".data, 0⟩⟩]


/-- The 12:00 message of the spec's end-to-end example (claim C1). -/
def msg1200 : Msg :=
  ⟨"We have Calii Love today! 🔥".data, some ⟨0, 12, 0⟩, [⟨"fire".data, 5⟩], []⟩

/-- The 11:40 message of the spec's end-to-end example (claim C1). -/
def msg1140 : Msg :=
  ⟨"we have Pizza Co".data, some ⟨0, 11, 40⟩, [], []⟩

/-!  ## Length lemmas for the vendor bounds (claim C4)  -/

/-- A successful prefix match is no longer than the text. -/
theorem startsWithL_length : ∀ (p t : List Char), startsWithL p t = true → p.length ≤ t.length := by
  intro p
  induction p with
  | nil => intro t _; simp
  | cons a ps ih =>
    intro t h
    cases t with
    | nil => simp [startsWithL] at h
    | cons c cs =>
      simp only [startsWithL, Bool.and_eq_true] at h
      simpa using ih cs h.2

/-- `dropWhile` never lengthens a list. -/
theorem lenDropWhile_le (p : Char → Bool) (l : List Char) :
    (l.dropWhile p).length ≤ l.length := by
  induction l with
  | nil => simp
  | cons c cs ih =>
    simp only [List.dropWhile]
    split
    · have := ih; simp only [List.length_cons]; omega
    · simp

/-- Stripping whitespace never lengthens a string. -/
theorem stripWS_length_le (l : List Char) : (stripWS l).length ≤ l.length := by
  unfold stripWS
  have h1 := lenDropWhile_le isPySpace l
  have h2 := lenDropWhile_le isPySpace (l.dropWhile isPySpace).reverse
  simp only [List.length_reverse] at *
  omega

/-- Unescaping HTML entities never lengthens a string: every entity
reference is strictly longer than its expansion. -/
theorem htmlUnescape_length_le : ∀ (fuel : Nat) (l : List Char),
    (htmlUnescape fuel l).length ≤ l.length := by
  intro fuel
  induction fuel with
  | zero => intro l; simp [htmlUnescape]
  | succ f ih =>
    intro l
    cases l with
    | nil => simp [htmlUnescape]
    | cons c cs =>
      simp only [htmlUnescape]
      split
      · cases hf : entityPairs.find? (fun p => startsWithL p.1 (c :: cs)) with
        | none => simpa using ih cs
        | some pr =>
          have hmem := List.mem_of_find?_eq_some hf
          have hlen : 4 ≤ pr.1.length := by
            simp only [entityPairs, List.mem_cons, List.not_mem_nil, or_false] at hmem
            rcases hmem with h | h | h | h | h | h <;> subst h <;> decide
          simp only
          have hrec := ih ((c :: cs).drop pr.1.length)
          have hdrop : ((c :: cs).drop pr.1.length).length = (c :: cs).length - pr.1.length :=
            List.length_drop _ _
          simp only [List.length_cons] at *
          omega
      · simpa using ih cs

/-- The finalizer (asterisk strip, whitespace strip, unescape) never
lengthens the vendor string. -/
theorem finalizeVendor_length_le (v : List Char) :
    (finalizeVendor v).length ≤ v.length := by
  unfold finalizeVendor unescape
  have h1 := htmlUnescape_length_le
    ((stripWS (v.filter (fun c => c ≠ '*'))).length + 1)
    (stripWS (v.filter (fun c => c ≠ '*')))
  have h2 := stripWS_length_le (v.filter (fun c => c ≠ '*'))
  have h3 := List.length_filter_le (fun c => c ≠ '*') v
  omega

/-- The accept step only produces strings strictly shorter than its
length bound. -/
theorem acceptVendor_some {b : Nat} {v w : List Char}
    (h : acceptVendor b v = some w) : w.length < b := by
  unfold acceptVendor at h
  split at h
  · simp at h
  · split at h
    · rename_i hcond
      have hw : finalizeVendor v = w := Option.some.inj h
      subst hw
      have := finalizeVendor_length_le v
      omega
    · simp at h

/-- First-some choice analysis. -/
theorem optOr_cases {a b : Option (List Char)} {v : List Char}
    (h : optOr a b = some v) : a = some v ∨ b = some v := by
  cases a <;> simp [optOr] at h ⊢ <;> simp [h]

/-- Any candidate accepted by the main pattern loop is shorter than 100. -/
theorem tryPattern_length {c : Option (List Char)} {v : List Char}
    (h : tryPattern c = some v) : v.length < 100 := by
  unfold tryPattern at h
  cases c with
  | none => simp at h
  | some g => exact acceptVendor_some h

/-- Any vendor produced by the ordered pattern pass is shorter than 100. -/
theorem vendorPatternPass_length {t v : List Char}
    (h : vendorPatternPass t = some v) : v.length < 100 := by
  unfold vendorPatternPass at h
  rcases optOr_cases h with h1 | h1
  · exact tryPattern_length h1
  rcases optOr_cases h1 with h2 | h2
  · exact tryPattern_length h2
  rcases optOr_cases h2 with h3 | h3
  · exact tryPattern_length h3
  rcases optOr_cases h3 with h4 | h4
  · exact tryPattern_length h4
  rcases optOr_cases h4 with h5 | h5
  · exact tryPattern_length h5
  · exact tryPattern_length h5

/-- Any vendor produced by the plain-`from` fallback is shorter than 50. -/
theorem fallbackFrom_length {t v : List Char}
    (h : fallbackFrom t = some v) : v.length < 50 := by
  unfold fallbackFrom at h
  cases hs : searchP1 t with
  | none => rw [hs] at h; simp at h
  | some g => rw [hs] at h; exact acceptVendor_some h

/-- Any vendor produced by the loose `we have` fallback is shorter
than 100. -/
theorem fallbackWeHave_length {t v : List Char}
    (h : fallbackWeHave t = some v) : v.length < 100 := by
  unfold fallbackWeHave at h
  cases hs : searchFb2 t with
  | none => rw [hs] at h; simp at h
  | some g => rw [hs] at h; exact acceptVendor_some h

/-!  ## Deduplicator and sorting lemmas (claims C7, C8)  -/

/-- An element of the updated association list is the new candidate or
an old one. -/
theorem mem_upsert {l : List Cand} {c x : Cand} (h : x ∈ upsert l c) :
    x = c ∨ x ∈ l := by
  induction l with
  | nil =>
    simp only [upsert, List.mem_singleton] at h
    exact Or.inl h
  | cons c' rest ih =>
    simp only [upsert] at h
    split at h
    · split at h
      · rcases List.mem_cons.mp h with rfl | hx
        · exact Or.inl rfl
        · exact Or.inr (List.mem_cons_of_mem _ hx)
      · exact Or.inr h
    · rcases List.mem_cons.mp h with rfl | hx
      · exact Or.inr (List.mem_cons_self _ _)
      · rcases ih hx with h1 | h2
        · exact Or.inl h1
        · exact Or.inr (List.mem_cons_of_mem _ h2)

/-- Updating the association list keeps its dates pairwise distinct. -/
theorem upsert_pairwise {l : List Cand} {c : Cand}
    (h : l.Pairwise (fun a b => a.day ≠ b.day)) :
    (upsert l c).Pairwise (fun a b => a.day ≠ b.day) := by
  induction l with
  | nil => simp [upsert]
  | cons c' rest ih =>
    rcases List.pairwise_cons.mp h with ⟨hhead, htail⟩
    simp only [upsert]
    split
    · rename_i hday
      split
      · exact List.pairwise_cons.mpr ⟨fun y hy => hday ▸ hhead y hy, htail⟩
      · exact h
    · rename_i hday
      refine List.pairwise_cons.mpr ⟨?_, ih htail⟩
      intro y hy
      rcases mem_upsert hy with rfl | hmem
      · exact hday
      · exact hhead y hmem

/-- Updating the association list preserves the weekday-date property
when the new candidate satisfies it. -/
theorem upsert_forall {l : List Cand} {c : Cand}
    (h : ∀ x ∈ l, x.day % 7 < 5) (hc : c.day % 7 < 5) :
    ∀ x ∈ upsert l c, x.day % 7 < 5 := by
  intro x hx
  rcases mem_upsert hx with rfl | hmem
  · exact hc
  · exact h x hmem

/-- One dedup step preserves both loop invariants: pairwise-distinct
dates and weekday-only dates. -/
theorem dedupStep_inv {acc : List Cand} {m : Msg}
    (h1 : acc.Pairwise (fun a b => a.day ≠ b.day))
    (h2 : ∀ x ∈ acc, x.day % 7 < 5) :
    (dedupStep acc m).Pairwise (fun a b => a.day ≠ b.day) ∧
      ∀ x ∈ dedupStep acc m, x.day % 7 < 5 := by
  unfold dedupStep
  split
  · exact ⟨h1, h2⟩
  · cases m.ts with
    | none => exact ⟨h1, h2⟩
    | some ti =>
      simp only
      split
      · exact ⟨h1, h2⟩
      · rename_i hwd
        refine ⟨upsert_pairwise h1, upsert_forall h2 ?_⟩
        simp only
        omega

/-- The dedup fold maintains the invariants from any valid accumulator. -/
theorem dedupFold_go_inv : ∀ (msgs : List Msg) (acc : List Cand),
    acc.Pairwise (fun a b => a.day ≠ b.day) →
    (∀ x ∈ acc, x.day % 7 < 5) →
    (msgs.foldl dedupStep acc).Pairwise (fun a b => a.day ≠ b.day) ∧
      ∀ x ∈ msgs.foldl dedupStep acc, x.day % 7 < 5 := by
  intro msgs
  induction msgs with
  | nil => intro acc h1 h2; exact ⟨h1, h2⟩
  | cons m rest ih =>
    intro acc h1 h2
    have := dedupStep_inv (m := m) h1 h2
    exact ih (dedupStep acc m) this.1 this.2

/-- The deduplicated candidate list has pairwise-distinct weekday dates. -/
theorem dedupFold_inv (msgs : List Msg) :
    (dedupFold msgs).Pairwise (fun a b => a.day ≠ b.day) ∧
      ∀ x ∈ dedupFold msgs, x.day % 7 < 5 := by
  unfold dedupFold
  exact dedupFold_go_inv msgs [] (by simp) (by simp)

/-- Membership in a stable insertion. -/
theorem mem_insDesc {x y : LunchRecord} {l : List LunchRecord} :
    y ∈ insDesc x l ↔ y = x ∨ y ∈ l := by
  induction l with
  | nil => simp [insDesc]
  | cons z zs ih =>
    simp only [insDesc]
    split
    · simp [List.mem_cons]
    · simp only [List.mem_cons, ih]
      tauto

/-- Membership is preserved by the stable sort. -/
theorem mem_sortDesc {y : LunchRecord} {l : List LunchRecord} :
    y ∈ sortDesc l ↔ y ∈ l := by
  induction l with
  | nil => simp [sortDesc]
  | cons x xs ih => simp [sortDesc, mem_insDesc, ih]

/-- Stable insertion preserves any symmetric pairwise relation. -/
theorem pairwise_insDesc {R : LunchRecord → LunchRecord → Prop}
    (hs : ∀ a b, R a b → R b a) {x : LunchRecord} {l : List LunchRecord}
    (hl : l.Pairwise R) (hx : ∀ y ∈ l, R x y) :
    (insDesc x l).Pairwise R := by
  induction l with
  | nil => simp [insDesc, List.pairwise_cons]
  | cons z zs ih =>
    rcases List.pairwise_cons.mp hl with ⟨hz, hzs⟩
    simp only [insDesc]
    split
    · exact List.pairwise_cons.mpr ⟨fun y hy => hx y hy, hl⟩
    · refine List.pairwise_cons.mpr ⟨?_, ih hzs (fun y hy => hx y (List.mem_cons_of_mem _ hy))⟩
      intro y hy
      rcases mem_insDesc.mp hy with rfl | hmem
      · exact hs _ _ (hx _ (List.mem_cons_self _ _))
      · exact hz y hmem

/-- The stable sort preserves any symmetric pairwise relation. -/
theorem pairwise_sortDesc {R : LunchRecord → LunchRecord → Prop}
    (hs : ∀ a b, R a b → R b a) {l : List LunchRecord}
    (hl : l.Pairwise R) : (sortDesc l).Pairwise R := by
  induction l with
  | nil => exact List.Pairwise.nil
  | cons x xs ih =>
    rcases List.pairwise_cons.mp hl with ⟨hx, hxs⟩
    simp only [sortDesc]
    exact pairwise_insDesc hs (ih hxs)
      (fun y hy => hx y (mem_sortDesc.mp hy))

/-- Stable insertion preserves descending order of `sentiment_rating`. -/
theorem sorted_insDesc {x : LunchRecord} {l : List LunchRecord}
    (hl : l.Pairwise (fun a b => b.sentiment_rating ≤ a.sentiment_rating)) :
    (insDesc x l).Pairwise (fun a b => b.sentiment_rating ≤ a.sentiment_rating) := by
  induction l with
  | nil => simp [insDesc, List.pairwise_cons]
  | cons z zs ih =>
    rcases List.pairwise_cons.mp hl with ⟨hz, hzs⟩
    simp only [insDesc]
    split
    · rename_i hle
      refine List.pairwise_cons.mpr ⟨?_, hl⟩
      intro y hy
      rcases List.mem_cons.mp hy with rfl | hmem
      · exact hle
      · exact le_trans (hz y hmem) hle
    · rename_i hgt
      refine List.pairwise_cons.mpr ⟨?_, ih hzs⟩
      intro y hy
      rcases mem_insDesc.mp hy with rfl | hmem
      · exact le_of_not_le hgt
      · exact hz y hmem

/-- The stable sort orders `sentiment_rating` non-increasingly. -/
theorem sorted_sortDesc (l : List LunchRecord) :
    (sortDesc l).Pairwise (fun a b => b.sentiment_rating ≤ a.sentiment_rating) := by
  induction l with
  | nil => simp [sortDesc]
  | cons x xs ih => exact sorted_insDesc ih

/-- Stability of one insertion: restricted to any fixed rating, the
inserted list reads exactly like consing the element in front. -/
theorem filter_insDesc (k : Int) (x : LunchRecord) (l : List LunchRecord) :
    (insDesc x l).filter (fun r => decide (r.sentiment_rating = k)) =
      (x :: l).filter (fun r => decide (r.sentiment_rating = k)) := by
  induction l with
  | nil => simp [insDesc]
  | cons z zs ih =>
    simp only [insDesc]
    split
    · rfl
    · rename_i hgt
      by_cases hx : x.sentiment_rating = k
      · have hz : ¬ z.sentiment_rating = k := fun hzk =>
          hgt (le_of_eq (hzk.trans hx.symm))
        simp [List.filter_cons, ih, hx, hz]
      · by_cases hz : z.sentiment_rating = k
        · simp [List.filter_cons, ih, hx, hz]
        · simp [List.filter_cons, ih, hx, hz]

/-- Stability of the sort: each rating class keeps its original order. -/
theorem filter_sortDesc (k : Int) (l : List LunchRecord) :
    (sortDesc l).filter (fun r => decide (r.sentiment_rating = k)) =
      l.filter (fun r => decide (r.sentiment_rating = k)) := by
  induction l with
  | nil => simp [sortDesc]
  | cons x xs ih =>
    simp only [sortDesc]
    rw [filter_insDesc]
    simp only [List.filter]
    rw [ih]

/-- The sort preserves length. -/
theorem length_sortDesc (l : List LunchRecord) :
    (sortDesc l).length = l.length := by
  induction l with
  | nil => rfl
  | cons x xs ih =>
    have : ∀ (y : LunchRecord) (m : List LunchRecord), (insDesc y m).length = m.length + 1 := by
      intro y m
      induction m with
      | nil => rfl
      | cons z zs ihm =>
        simp only [insDesc]
        split
        · simp
        · simp [ihm]
    simp [sortDesc, this, ih]

/-- Ranking forgets to the sorted record list. -/
theorem withRanks_map_entry : ∀ (i : Nat) (l : List LunchRecord),
    (withRanks i l).map (fun r => r.entry) = l := by
  intro i l
  induction l generalizing i with
  | nil => rfl
  | cons x xs ih => simp [withRanks, ih]

/-- The assigned ranks are consecutive from the starting index. -/
theorem withRanks_map_rank : ∀ (i : Nat) (l : List LunchRecord),
    (withRanks i l).map (fun r => r.rank) = List.range' i l.length := by
  intro i l
  induction l generalizing i with
  | nil => rfl
  | cons x xs ih => simp [withRanks, ih, List.range']

/-- Ranking preserves length. -/
theorem withRanks_length : ∀ (i : Nat) (l : List LunchRecord),
    (withRanks i l).length = l.length := by
  intro i l
  induction l generalizing i with
  | nil => rfl
  | cons x xs ih => simp [withRanks, ih]

/-!  ## Scorer sign and congruence lemmas (claims C3, C10)  -/

/-- A sum of non-negative integers is non-negative. -/
theorem intSum_nonneg {l : List Int} (h : ∀ x ∈ l, 0 ≤ x) : 0 ≤ intSum l := by
  induction l with
  | nil => simp [intSum]
  | cons x xs ih =>
    simp only [intSum]
    have hx := h x (List.mem_cons_self _ _)
    have hxs := ih (fun y hy => h y (List.mem_cons_of_mem _ hy))
    omega

/-- Truncated halving preserves non-negativity. -/
theorem pyHalf_nonneg {x : Int} (h : 0 ≤ x) : 0 ≤ pyHalf x := by
  unfold pyHalf
  split
  · omega
  · omega

/-- The rescheduling multiplier preserves non-negativity. -/
theorem halfIf_nonneg (f : Bool) {x : Int} (h : 0 ≤ x) : 0 ≤ halfIf f x := by
  unfold halfIf
  split
  · exact pyHalf_nonneg h
  · exact h

/-- Root-reaction contributions are non-negative (counts are `Nat`). -/
theorem reactionBase_nonneg (r : Reaction) : 0 ≤ reactionBase r := by
  unfold reactionBase
  simp only
  split
  · positivity
  · split
    · positivity
    · positivity

/-- Congruent per-element summands give equal sums. -/
theorem intSum_map_congr (l : List (List Char)) (f g : List Char → Int)
    (h : ∀ p ∈ l, f p = g p) : intSum (l.map f) = intSum (l.map g) := by
  induction l with
  | nil => rfl
  | cons x xs ih =>
    simp only [List.map_cons, intSum]
    rw [h x (List.mem_cons_self _ _), ih (fun y hy => h y (List.mem_cons_of_mem _ hy))]

/-!  ## Claim theorems  -/

/-- C1, counterexample: on the spec's end-to-end example, the priority
score of the 12:00 message "We have Calii Love today! 🔥" is not 1000 —
the `(?:we have|today we have|from)\s+[A-Z]…` bonus regex is
case-insensitive and matches this text too, adding +100. -/
theorem c1_counterexample :
    ¬ (get_message_priority_score msg1200.text 12 0 = 1000) := by decide

/-- C1, amended: both example messages receive the +100 "we have"
vendor-pattern bonus, so the scores are 1100 (12:00) and 1080 (11:40),
and the deduplicator keeps the 12:00 message for the date — in either
encounter order. -/
theorem c1_amended :
    get_message_priority_score msg1200.text 12 0 = 1100 ∧
    get_message_priority_score msg1140.text 11 40 = 1080 ∧
    upsert (upsert [] ⟨msg1200, 0, get_message_priority_score msg1200.text 12 0⟩)
        ⟨msg1140, 0, get_message_priority_score msg1140.text 11 40⟩ =
      [⟨msg1200, 0, 1100⟩] ∧
    upsert (upsert [] ⟨msg1140, 0, get_message_priority_score msg1140.text 11 40⟩)
        ⟨msg1200, 0, get_message_priority_score msg1200.text 12 0⟩ =
      [⟨msg1200, 0, 1100⟩] := by decide

/-- C2, counterexample: on the text
"Lunch has arrived! We have Toben: Bowl (GF, DF) Rice (V)", menu
extraction does not return "Items: Bowl (GF, DF), Rice (V)" — the whole
indicator line up to the first dietary bracket becomes the single
entry. -/
theorem c2_counterexample :
    ¬ (extract_menu_items
        "Lunch has arrived! We have Toben: Bowl (GF, DF) Rice (V)".data =
      "Items: Bowl (GF, DF), Rice (V)".data) := by decide

/-- C2, amended: the vendor is "Toben" as claimed, but the menu summary
is "Items: Lunch has arrived! We have Toben: Bowl (GF, DF)" (the
indicator line carries a dietary bracket, so it is itself captured as
content and truncated at the end of that first bracket). -/
theorem c2_amended :
    extract_vendor_name
        "Lunch has arrived! We have Toben: Bowl (GF, DF) Rice (V)".data =
      "Toben".data ∧
    extract_menu_items
        "Lunch has arrived! We have Toben: Bowl (GF, DF) Rice (V)".data =
      "Items: Lunch has arrived! We have Toben: Bowl (GF, DF)".data := by decide

/-- C3, counterexample: phrase scoring is by presence, not occurrence —
a text containing "amazing" twice scores 2, not 2·2 = 4. -/
theorem c3_counterexample :
    analyze_sentiment "amazing amazing".data = 2 ∧
      ¬ (analyze_sentiment "amazing amazing".data = 4) := by decide

/-- C5, counterexample: on a non-positive reply, a "heart" reaction of
count 1 contributes weight 1, not weight 2 — the total is 3
(2 for the reply, 0 sentiment, 1 for the reaction), not the 4 the
claim's weights give. -/
theorem c5_counterexample :
    calculate_sentiment_rating ⟨[], none, [], []⟩
        [⟨[], [⟨"heart".data, 1⟩]⟩] = 3 ∧
      ¬ (calculate_sentiment_rating ⟨[], none, [], []⟩
          [⟨[], [⟨"heart".data, 1⟩]⟩] = 4) := by decide

/-- C9: a message containing neither the literal `@toronto` tag nor a
tag-encoded `<!subteam` mention is never classified as a lunch
announcement, whatever its other content, timestamp or reactions. -/
theorem c9_requires_audience_tag (m : Msg)
    (h1 : containsSub "@toronto".data (toLowerL m.text) = false)
    (h2 : containsSub "<!subteam".data (toLowerL m.text) = false) :
    is_lunch_message m = false := by
  simp [is_lunch_message, h1, h2]

/-- C9, witness: a concrete tag-free message is rejected. -/
theorem c9_witness :
    is_lunch_message ⟨"hello".data, some ⟨0, 11, 0⟩, [], []⟩ = false :=
  c9_requires_audience_tag _ (by decide) (by decide)

/-- C10: with an empty reply list, the sentiment rating is a sum of
per-reaction terms `int(count · weight · multiplier)` with `count`
non-negative, so it is never negative — negative ratings can only come
from thread replies. -/
theorem c10_root_score_nonneg (m : Msg) :
    0 ≤ calculate_sentiment_rating m [] := by
  unfold calculate_sentiment_rating
  simp only [List.isEmpty_nil, if_true, List.length_nil, add_zero]
  exact intSum_nonneg (by
    intro x hx
    rcases List.mem_map.mp hx with ⟨r, _, rfl⟩
    exact halfIf_nonneg _ (reactionBase_nonneg r))

/-- C6: on a rescheduling-flagged message the multiplier is applied and
truncated per contribution, not once over the total: in general the
reaction part is the sum of individually truncated halves, and in
particular a flagged single `+1` (count 1) scores `int(1·2·0.5) = 1`
versus 2 unflagged, while two neutral count-1 reactions score
`int(0.5)+int(0.5) = 0` (a single truncation of the total would give 1). -/
theorem c6_per_contribution_halving :
    (∀ (text : List Char) (rs : List Reaction),
        anyContains rescheduling_words (toLowerL text) = true →
        calculate_sentiment_rating ⟨text, none, rs, []⟩ [] =
          intSum (rs.map (fun r => pyHalf (reactionBase r)))) ∧
    calculate_sentiment_rating ⟨"rescheduled".data, none, [⟨"+1".data, 1⟩], []⟩ [] = 1 ∧
    calculate_sentiment_rating ⟨[], none, [⟨"+1".data, 1⟩], []⟩ [] = 2 ∧
    calculate_sentiment_rating
        ⟨"rescheduled".data, none, [⟨"zzz".data, 1⟩, ⟨"zzz".data, 1⟩], []⟩ [] = 0 := by
  refine ⟨?_, by decide, by decide, by decide⟩
  intro text rs h
  unfold calculate_sentiment_rating
  simp only [h, List.isEmpty_nil, if_true, add_zero, halfIf]

/-- C6, witness: the general per-contribution form, instantiated at the
flagged `+1` example. -/
theorem c6_witness :
    calculate_sentiment_rating ⟨"rescheduled".data, none, [⟨"+1".data, 1⟩], []⟩ [] =
      intSum ([(⟨"+1".data, 1⟩ : Reaction)].map (fun r => pyHalf (reactionBase r))) :=
  c6_per_contribution_halving.1 "rescheduled".data [⟨"+1".data, 1⟩] (by decide)

/-- C3, amended: the phrase part of the text-sentiment score depends
only on which lexicon phrases are present (each counted once, however
many times it occurs); emoji-name tokens are still counted per
occurrence.  Two texts with the same phrase-presence profile and the
same emoji-token list get the same score. -/
theorem c3_amended (t1 t2 : List Char)
    (hp : ∀ p ∈ positive_phrases,
      containsSub p (toLowerL t1) = containsSub p (toLowerL t2))
    (hn : ∀ p ∈ negative_phrases,
      containsSub p (toLowerL t1) = containsSub p (toLowerL t2))
    (he : emojiFindAll ((toLowerL t1).length + 1) (toLowerL t1) =
      emojiFindAll ((toLowerL t2).length + 1) (toLowerL t2)) :
    analyze_sentiment t1 = analyze_sentiment t2 := by
  unfold analyze_sentiment
  simp only [he]
  rw [intSum_map_congr positive_phrases _ _ (fun p hmem => by rw [hp p hmem]),
    intSum_map_congr negative_phrases _ _ (fun p hmem => by rw [hn p hmem])]

/-- C3, witness: "amazing amazing" (two occurrences) scores the same as
"amazing" (one occurrence). -/
theorem c3_witness :
    analyze_sentiment "amazing amazing".data = analyze_sentiment "amazing".data :=
  c3_amended _ _ (by decide) (by decide) (by decide)

/-- C5, amended: on a reply whose text sentiment is not positive, a
reaction weighs 2 only when its name matches an enthusiastic-emoji
pattern (`heart_eyes`, `star_struck`, `drooling`, `yum`, `fire`);
every other reaction — including positive-emoji names such as `heart`
or `clap` — weighs 1. -/
theorem c5_amended (rtext name : List Char) (count : Nat)
    (h : analyze_sentiment rtext ≤ 0) :
    calculate_sentiment_rating ⟨[], none, [], []⟩ [⟨rtext, [⟨name, count⟩]⟩] =
      2 + analyze_sentiment rtext +
        (if anyIn enthReplyNegPats (toLowerL name) then (count : Int) * 2
         else (count : Int) * 1) := by
  unfold calculate_sentiment_rating replyScore replyReactionScore
  have hres : anyContains rescheduling_words (toLowerL ([] : List Char)) = false := by
    decide
  have hdec : decide (0 < analyze_sentiment rtext) = false :=
    decide_eq_false (not_lt.mpr h)
  simp only [hres, hdec, halfIf, intSum, List.map_nil, List.map_cons, List.isEmpty_cons,
    Bool.false_eq_true, if_false, List.length_cons, List.length_nil]
  by_cases h1 : anyIn enthReplyNegPats (toLowerL name) = true
  · simp only [h1, if_true]
    push_cast
    ring
  · rw [Bool.not_eq_true] at h1
    simp only [h1, Bool.false_eq_true, if_false]
    by_cases h2 : anyIn posReplyNegPats (toLowerL name) = true
    · simp only [h2, if_true]
      push_cast
      ring
    · rw [Bool.not_eq_true] at h2
      simp only [h2, Bool.false_eq_true, if_false]
      push_cast
      ring

/-- C5, witness: the amended weighting at a concrete non-positive reply
with a `heart` reaction. -/
theorem c5_witness :
    calculate_sentiment_rating ⟨[], none, [], []⟩ [⟨[], [⟨"heart".data, 1⟩]⟩] =
      2 + analyze_sentiment [] +
        (if anyIn enthReplyNegPats (toLowerL "heart".data) then (1 : Int) * 2
         else (1 : Int) * 1) :=
  c5_amended [] "heart".data 1 (by decide)

/-- C4, counterexample: the `(2, 100)` length window is checked before
the final asterisk-strip/unescape/strip, so the returned string can be
shorter than 3: on "we have *a* today" the capture `*a*` (length 3)
passes the check and the returned vendor is the single character "a". -/
theorem c4_counterexample :
    extract_vendor_name "we have *a* today".data ≠ "N/A".data ∧
      ¬ (2 < (extract_vendor_name "we have *a* today".data).length) := by decide

/-- C4, amended: the upper bounds hold of the returned string — any
non-"N/A" result is strictly shorter than 100 characters, and anything
the plain-`from` fallback pass produces is strictly shorter than 50 —
but the lower bound 2 only constrains the candidate before the final
cleanup, not the returned string. -/
theorem c4_amended (t v : List Char) :
    (extract_vendor_name t ≠ "N/A".data → (extract_vendor_name t).length < 100) ∧
    (fallbackFrom t = some v → v.length < 50) := by
  constructor
  · intro hne
    have hEq : extract_vendor_name t =
        (match vendorPatternPass (linkClean (unescape t)) with
         | some v => v
         | none =>
           match fallbackFrom (linkClean (unescape t)) with
           | some v => v
           | none =>
             match fallbackWeHave (linkClean (unescape t)) with
             | some v => v
             | none => "N/A".data) := rfl
    rw [hEq] at hne ⊢
    cases h1 : vendorPatternPass (linkClean (unescape t)) with
    | some w => exact vendorPatternPass_length h1
    | none =>
      cases h2 : fallbackFrom (linkClean (unescape t)) with
      | some w => exact Nat.lt_trans (fallbackFrom_length h2) (by norm_num)
      | none =>
        cases h3 : fallbackWeHave (linkClean (unescape t)) with
        | some w => exact fallbackWeHave_length h3
        | none =>
          simp only [h1, h2, h3] at hne
          exact absurd rfl hne
  · exact fallbackFrom_length

/-- C4, witness: the bounds at concrete inputs — the "we have *a* today"
extraction (length 1 < 100) and a fallback-1 capture "Ab today x"
(length 10 < 50). -/
theorem c4_witness :
    (extract_vendor_name "we have *a* today".data).length < 100 ∧
      ("Ab today x".data).length < 50 :=
  ⟨(c4_amended "we have *a* today".data []).1 (by decide),
   (c4_amended "from Ab today x".data "Ab today x".data).2 (by decide)⟩

/-- C7: the pipeline emits at most one record per calendar date (the
dates of the output are pairwise distinct) and never a Saturday or
Sunday date. -/
theorem c7_dedup_invariants (msgs : List Msg) (out : List RankedLunch)
    (h : analyze_lunches msgs = some out) :
    (out.map (fun r => r.entry.date)).Pairwise (fun a b => a ≠ b) ∧
      ∀ r ∈ out, r.entry.date % 7 < 5 := by
  have hAn : analyze_lunches msgs =
      (if (lunchData msgs).isEmpty then none
       else some (withRanks 1 (sortDesc (lunchData msgs)))) := rfl
  rw [hAn] at h
  split at h
  · simp at h
  · have hout : out = withRanks 1 (sortDesc (lunchData msgs)) :=
      (Option.some.inj h).symm
    subst hout
    have hinv := dedupFold_inv msgs
    have hdata : (lunchData msgs).Pairwise (fun a b => a.date ≠ b.date) := by
      unfold lunchData
      rw [List.pairwise_map]
      exact hinv.1
    constructor
    · have hmaps :
          (withRanks 1 (sortDesc (lunchData msgs))).map (fun r => r.entry.date) =
            (sortDesc (lunchData msgs)).map (fun r => r.date) := by
        have he := withRanks_map_entry 1 (sortDesc (lunchData msgs))
        calc (withRanks 1 (sortDesc (lunchData msgs))).map (fun r => r.entry.date)
            = ((withRanks 1 (sortDesc (lunchData msgs))).map
                (fun r => r.entry)).map (fun r => r.date) := by
              rw [List.map_map]; rfl
          _ = (sortDesc (lunchData msgs)).map (fun r => r.date) := by rw [he]
      rw [hmaps, List.pairwise_map]
      exact pairwise_sortDesc (fun a b hab => hab.symm) hdata
    · intro r hr
      have hre : r.entry ∈ sortDesc (lunchData msgs) := by
        have he := withRanks_map_entry 1 (sortDesc (lunchData msgs))
        rw [← he]
        exact List.mem_map_of_mem _ hr
      have hmem : r.entry ∈ lunchData msgs := mem_sortDesc.mp hre
      rcases List.mem_map.mp hmem with ⟨c, hc, hrc⟩
      have hc5 := hinv.2 c hc
      rw [← hrc]
      exact hc5

/-- C7, witness: the invariants at the concrete sample run. -/
theorem c7_witness :
    (sampleOut.map (fun r => r.entry.date)).Pairwise (fun a b => a ≠ b) ∧
      ∀ r ∈ sampleOut, r.entry.date % 7 < 5 :=
  c7_dedup_invariants sampleMsgs sampleOut (by decide)

/-- C8: the ranks of the output are exactly 1..N in order, the
sentiment ratings are non-increasing along the ranked output, and the
sort is stable — each sentiment class keeps its original
date-iteration order from `lunchData`. -/
theorem c8_rank_order (msgs : List Msg) (out : List RankedLunch)
    (h : analyze_lunches msgs = some out) :
    out.map (fun r => r.rank) = List.range' 1 out.length ∧
    (out.map (fun r => r.entry.sentiment_rating)).Pairwise
      (fun a b : Int => b ≤ a) ∧
    ∀ k : Int,
      (out.map (fun r => r.entry)).filter
          (fun r => decide (r.sentiment_rating = k)) =
        (lunchData msgs).filter (fun r => decide (r.sentiment_rating = k)) := by
  have hAn : analyze_lunches msgs =
      (if (lunchData msgs).isEmpty then none
       else some (withRanks 1 (sortDesc (lunchData msgs)))) := rfl
  rw [hAn] at h
  split at h
  · simp at h
  · have hout : out = withRanks 1 (sortDesc (lunchData msgs)) :=
      (Option.some.inj h).symm
    subst hout
    refine ⟨?_, ?_, ?_⟩
    · rw [withRanks_map_rank, withRanks_length, length_sortDesc]
    · have hmaps :
          (withRanks 1 (sortDesc (lunchData msgs))).map
              (fun r => r.entry.sentiment_rating) =
            (sortDesc (lunchData msgs)).map (fun r => r.sentiment_rating) := by
        have he := withRanks_map_entry 1 (sortDesc (lunchData msgs))
        calc (withRanks 1 (sortDesc (lunchData msgs))).map
              (fun r => r.entry.sentiment_rating)
            = ((withRanks 1 (sortDesc (lunchData msgs))).map
                (fun r => r.entry)).map (fun r => r.sentiment_rating) := by
              rw [List.map_map]; rfl
          _ = _ := by rw [he]
      rw [hmaps, List.pairwise_map]
      exact sorted_sortDesc (lunchData msgs)
    · intro k
      rw [withRanks_map_entry, filter_sortDesc]

/-- C8, witness: ranks, ordering and stability at the concrete sample
run (stability instantiated at rating 0). -/
theorem c8_witness :
    sampleOut.map (fun r => r.rank) = List.range' 1 sampleOut.length ∧
      (sampleOut.map (fun r => r.entry)).filter
          (fun r => decide (r.sentiment_rating = 0)) =
        (lunchData sampleMsgs).filter (fun r => decide (r.sentiment_rating = 0)) :=
  ⟨(c8_rank_order sampleMsgs sampleOut (by decide)).1,
   (c8_rank_order sampleMsgs sampleOut (by decide)).2.2 0⟩
